import Mathlib

/-!
Verification of the lichessdbfish protocol intermediary (src/src/main.rs)
against its natural-language specification.

The Rust source is shallowly embedded below: `u64`/`usize` counters become
`Nat` (all inputs considered stay far below 2^64, and no claim concerns
wrap-around), `Rc<PositionInfo>` sharing becomes value sharing through an
explicit cache state, the blocking line streams become explicit `List String`
arguments, and every Rust panic (`unwrap` on `None`/`Err`, out-of-bounds
indexing, division by zero) is made explicit: a function that can panic
returns an `Option`, with `none` standing for the panic.
-/

/-- Model of `const STARTPOS` (src/src/main.rs line 16). -/
def STARTPOS : String := "rnbqkbnr/pppppppp/8/8/8/8/PPPPPPPP/RNBQKBNR w KQkq - 0 1"

/-- Model of `enum SortBy` (lines 68-71). -/
inductive SortBy
  | Games
  | Score
deriving DecidableEq, Repr

/-- Model of `enum WeightBy` (lines 73-77). -/
inductive WeightBy
  | Games
  | Score
  | Random
deriving DecidableEq, Repr

/-- Model of `enum Turn` (lines 79-82). -/
inductive Turn
  | White
  | Black
deriving DecidableEq, Repr

/-- Model of `struct RatingFilter` (lines 53-59). -/
structure RatingFilter where
  rating_1600 : Bool
  rating_1800 : Bool
  rating_2000 : Bool
  rating_2200 : Bool
  rating_2500 : Bool
deriving DecidableEq, Repr

/-- Model of `struct TimeControlFilter` (lines 61-66). -/
structure TimeControlFilter where
  bullet : Bool
  blitz : Bool
  rapid : Bool
  classical : Bool
deriving DecidableEq, Repr

/-- Model of `struct Move` (lines 84-91): one candidate reply with its
protocol (`uci`) and readable (`san`) notation and outcome counts. -/
structure Move where
  uci : String
  san : String
  white : Nat
  draws : Nat
  black : Nat
deriving DecidableEq, Repr

/-- Model of `struct PositionInfo` (lines 93-99). -/
structure PositionInfo where
  white : Nat
  draws : Nat
  black : Nat
  moves : List Move
deriving DecidableEq, Repr

/-- Model of `struct Engine` (lines 36-51).  The `HashMap<String,
Rc<PositionInfo>>` cache is modelled as an association list with
newest-insertion-first lookup, which has the same lookup semantics. -/
structure Engine where
  master_games : Bool
  ratings : RatingFilter
  tc : TimeControlFilter
  opt_games_min : Nat
  opt_games_pct_min : Nat
  opt_score_pct_min : Nat
  opt_sortby : SortBy
  opt_variants : Nat
  opt_weightby : WeightBy
  fen : String
  turn : Turn
  cache : List (String × PositionInfo)

/-- The initial engine state built in `main` (lines 554-582). -/
def initialEngine : Engine :=
  { master_games := false
    ratings :=
      { rating_1600 := true, rating_1800 := true, rating_2000 := true,
        rating_2200 := true, rating_2500 := true }
    tc := { bullet := true, blitz := true, rapid := true, classical := true }
    opt_games_min := 30
    opt_games_pct_min := 1
    opt_score_pct_min := 0
    opt_sortby := SortBy.Games
    opt_variants := 1
    opt_weightby := WeightBy.Random
    fen := STARTPOS
    turn := Turn.White
    cache := [] }

/-- Model of `fn fix_castle` (lines 101-109): rewrite the four
king-captures-rook castling encodings, pass everything else through. -/
def fix_castle (lichess_move : String) : String :=
  if lichess_move = "e1h1" then "e1g1"
  else if lichess_move = "e1a1" then "e1c1"
  else if lichess_move = "e8h8" then "e8g8"
  else if lichess_move = "e8a8" then "e8c8"
  else lichess_move

/-- Lookup in the association-list model of the `HashMap` cache
(`cache.get(fen)` in line 168). -/
def cacheLookup (cache : List (String × PositionInfo)) (fen : String) :
    Option PositionInfo :=
  match cache with
  | [] => none
  | (k, v) :: rest => if k = fen then some v else cacheLookup rest fen

/-- Cache plus a count of network-fetch invocations, used to state the
"network collaborator invoked at most once" property. -/
structure FetchState where
  cache : List (String × PositionInfo)
  fetchCount : Nat
deriving Repr

/-- Model of `fn get_position_info_cached` (lines 167-182).  The network
collaborator `get_position_info` is out of scope (HTTP + JSON internals); it
is abstracted as an oracle `fetch` indexed by the number of fetches already
performed, `none` standing for any of its collapsed `Err` outcomes.  On a
cache hit the shared instance is returned and the oracle is not consulted;
on a miss the oracle is consulted once, a success is inserted and returned,
a failure returns `none` without inserting anything. -/
def get_position_info_cached (fetch : Nat → Option PositionInfo)
    (fen : String) (s : FetchState) : Option PositionInfo × FetchState :=
  match cacheLookup s.cache fen with
  | some position => (some position, s)
  | none =>
    match fetch s.fetchCount with
    | some position =>
      (some position,
        { cache := (fen, position) :: s.cache, fetchCount := s.fetchCount + 1 })
    | none => (none, { s with fetchCount := s.fetchCount + 1 })

/-- `wins for the side to move` subterm of the score expression:
`if let Turn::White = engine.turn { x.white } else { x.black }`
(lines 188, 194, 202, 212). -/
def winsFor (turn : Turn) (m : Move) : Nat :=
  match turn with
  | Turn.White => m.white
  | Turn.Black => m.black

/-- The side-adjusted score percent exactly as the code computes it at its
four sites (filter line 188, both sort arguments line 194, weight lines 202
and 212): `(2*wins + draws)*100 / (2*white + black + 2*draws)`.
Note the denominator weighs `black` once (the code as written), not twice. -/
def scorePct (turn : Turn) (m : Move) : Nat :=
  (2 * winsFor turn m + m.draws) * 100 / (2 * m.white + m.black + 2 * m.draws)

/-- The side-adjusted score percent as the SPEC words it (spec section 4.5
step 1 and the glossary): numerator as in the code, but divided by
`2 × move-total-games = 2 × (white + draws + black)`.  Kept separate from
`scorePct` so the two formulas can be compared. -/
def scorePctSpec (turn : Turn) (m : Move) : Nat :=
  (2 * winsFor turn m + m.draws) * 100 / (2 * (m.white + m.draws + m.black))

/-- First filter of `get_position_move` (line 186):
`x.white + x.black + x.draws >= engine.opt_games_min`. -/
def passGamesMin (e : Engine) (x : Move) : Bool :=
  decide (e.opt_games_min ≤ x.white + x.black + x.draws)

/-- Second filter (line 187): the move's share of the position's total games,
`(x.white + x.black + x.draws)*100/(position.white + position.draws +
position.black) >= engine.opt_games_pct_min`.  In Rust this division panics
when the position total is zero; theorems touching this stage therefore carry
the hypothesis `0 < position.white + position.draws + position.black`. -/
def passGamesPct (e : Engine) (position : PositionInfo) (x : Move) : Bool :=
  decide (e.opt_games_pct_min ≤
    (x.white + x.black + x.draws) * 100 /
      (position.white + position.draws + position.black))

/-- Third filter (line 188): side-adjusted score percent against
`engine.opt_score_pct_min`. -/
def passScorePct (e : Engine) (x : Move) : Bool :=
  decide (e.opt_score_pct_min ≤ scorePct e.turn x)

/-- The three chained `.filter(..)` calls of lines 185-189.  Chaining the
filters (rather than one conjunction) mirrors the Rust iterator: a move
rejected by an earlier filter is never seen by a later one. -/
def filteredMoves (e : Engine) (position : PositionInfo) : List Move :=
  ((position.moves.filter (passGamesMin e)).filter
      (passGamesPct e position)).filter (passScorePct e)

/-- Sort key of the `sort_by` comparator (lines 191-196): total games or
side-adjusted score percent, compared descending. -/
def sortKey (e : Engine) (m : Move) : Nat :=
  match e.opt_sortby with
  | SortBy.Games => m.white + m.black + m.draws
  | SortBy.Score => scorePct e.turn m

/-- Insert into a descending-sorted list, after all strictly larger keys and
before all equal-or-smaller keys (so earlier elements with an equal key stay
in front: stability). -/
def insertDesc {α : Type} (key : α → Nat) (x : α) : List α → List α
  | [] => [x]
  | y :: ys => if key x < key y then y :: insertDesc key x ys else x :: y :: ys

/-- Stable descending insertion sort.  Rust's `Vec::sort_by` is a stable
sort, and the comparator of lines 191-196 orders by descending `sortKey`;
a stable sort's output is uniquely determined by the comparator and the
input order, so this computes the same list. -/
def sortDesc {α : Type} (key : α → Nat) : List α → List α
  | [] => []
  | x :: xs => insertDesc key x (sortDesc key xs)

/-- Filter, sort and truncate stages of `get_position_move`
(lines 185-198): the retained candidate list. -/
def retainedMoves (e : Engine) (position : PositionInfo) : List Move :=
  (sortDesc (sortKey e) (filteredMoves e position)).take e.opt_variants

/-- Per-candidate weight of the configured weighting mode
(lines 210-214). -/
def moveWeight (e : Engine) (x : Move) : Nat :=
  match e.opt_weightby with
  | WeightBy.Games => x.white + x.draws + x.black
  | WeightBy.Score => scorePct e.turn x
  | WeightBy.Random => 1

/-- Total weight of the retained candidates (lines 200-204): a fold for the
games and score modes, the list length for the uniform mode. -/
def totalWeight (e : Engine) (moves : List Move) : Nat :=
  match e.opt_weightby with
  | WeightBy.Games =>
    moves.foldl (fun acc x => acc + (x.white + x.draws + x.black)) 0
  | WeightBy.Score => moves.foldl (fun acc x => acc + scorePct e.turn x) 0
  | WeightBy.Random => moves.length

/-- The returned record of lines 217-223: the chosen candidate with its
protocol notation castling-fixed. -/
def mkSelected (x : Move) : Move :=
  { uci := fix_castle x.uci, san := x.san, white := x.white, draws := x.draws,
    black := x.black }

/-- The selection loop of lines 207-225: accumulate weights in order and
return the first candidate whose cumulative weight strictly exceeds the
drawn integer `random`. -/
def selectLoop (e : Engine) (random : Nat) (accWeight : Nat) :
    List Move → Option Move
  | [] => none
  | x :: xs =>
    if random < accWeight + moveWeight e x then some (mkSelected x)
    else selectLoop e random (accWeight + moveWeight e x) xs

/-- Model of `fn get_position_move` (lines 184-229).  The single call
`rng.gen_range(0, total_weight)` is modelled by the parameter `random`;
faithfulness to the uniform draw is expressed in theorems by the side
condition `random < totalWeight ...`. -/
def get_position_move (e : Engine) (position : PositionInfo) (random : Nat) :
    Option Move :=
  let moves := retainedMoves e position
  if totalWeight e moves ≠ 0 then selectLoop e random 0 moves
  else none

/-- Largest `u64` value; an unsigned parse fails above it. -/
def U64_MAX : Nat := 18446744073709551615

/-- An unsigned digit run: `none` unless the character list is non-empty and
all ASCII digits, otherwise its decimal value. -/
def parseDigits (cs : List Char) : Option Nat :=
  if cs = [] then none
  else if cs.all (fun c => c.isDigit) then
    some (cs.foldl (fun acc c => acc * 10 + (c.toNat - 48)) 0)
  else none

/-- Model of Rust `str::parse::<i32>()`: this is the type of the match
SCRUTINEE `x.parse().unwrap()` in the integer arms of `process_setoption`
(lines 285, 295, 305, 315) — the range patterns `1...1000000000`,
`1...100`, `0...50` are integer literals, whose type falls back to `i32`
(all the bounds fit).  An optional single `+`/`-` sign followed by one or
more ASCII digits, with the value required to fit in
`[-2147483648, 2147483647]`.  `none` models `Err(ParseIntError)`, which the
code immediately `unwrap`s (panics). -/
def parseI32 (s : String) : Option Int :=
  match s.data with
  | [] => none
  | c :: rest =>
    if c = '+' then
      (parseDigits rest).bind
        (fun d => if (d : Int) ≤ 2147483647 then some (d : Int) else none)
    else if c = '-' then
      (parseDigits rest).bind
        (fun d => if (d : Int) ≤ 2147483648 then some (-(d : Int)) else none)
    else
      (parseDigits (c :: rest)).bind
        (fun d => if (d : Int) ≤ 2147483647 then some (d : Int) else none)

/-- Model of Rust `str::parse` at an UNSIGNED type (`u64` for
`opt_games_min`/`opt_games_pct_min`/`opt_score_pct_min`, `usize` for
`opt_variants`): this is the type of the second parse inside the assignment
arm bodies (`engine.opt_... = x.parse().unwrap()`, lines 286, 296, 306,
316).  An optional leading `+` (a `-` sign is rejected outright, even on
`-0`) followed by one or more ASCII digits, rejecting values above
`u64::MAX`.  `none` models `Err`, which the code `unwrap`s (panics). -/
def parseU64 (s : String) : Option Nat :=
  match s.data with
  | [] => none
  | c :: rest =>
    if c = '+' then
      (parseDigits rest).bind (fun d => if d ≤ U64_MAX then some d else none)
    else if c = '-' then none
    else
      (parseDigits (c :: rest)).bind
        (fun d => if d ≤ U64_MAX then some d else none)

/-- The `args.iter().fold(CMD.to_string(), |acc, x| acc + " " + x)` pattern
used to rebuild a forwarded command line (lines 412, 461, 471). -/
def joinWith (cmd : String) (args : List String) : String :=
  args.foldl (fun acc x => acc ++ " " ++ x) cmd

/-- One integer (`spin`) arm of `process_setoption` (e.g. lines 283-292):
after the option name, expect the `value` token and a value.  The match
scrutinee parses the token at `i32` and `unwrap`s (`none` = panic on a token
unparsable as `i32`); only when the parsed value matches the arm's inclusive
range pattern does the arm body re-parse the same token at the option's
unsigned type and `unwrap` again (that second parse panics exactly on a
`-`-signed token, which can only have matched a range whose minimum is 0,
i.e. `-0` for `LichessDB_Variants`); any other token structure is a no-op,
as is an in-`i32` out-of-range value. -/
def setSpin (e : Engine) (lo hi : Int) (assign : Engine → Nat → Engine)
    (rest : List String) : Option Engine :=
  match rest with
  | v0 :: rest2 =>
    if v0 = "value" then
      match rest2 with
      | x :: _ =>
        match parseI32 x with
        | some n =>
          if lo ≤ n ∧ n ≤ hi then
            match parseU64 x with
            | some m => some (assign e m)
            | none => none
          else some e
        | none => none
      | [] => some e
    else some e
  | [] => some e

/-- One enumerated/boolean arm of `process_setoption` (e.g. lines 274-282):
after the option name, expect the `value` token and a value; `upd` returns
the updated engine only for the arm's accepted literals, anything else
(including a missing token) is a no-op. -/
def setEnum (e : Engine) (upd : String → Option Engine)
    (rest : List String) : Engine :=
  match rest with
  | v0 :: rest2 =>
    if v0 = "value" then
      match rest2 with
      | x :: _ =>
        match upd x with
        | some e2 => e2
        | none => e
      | [] => e
    else e
  | [] => e

/-- Model of `fn process_setoption` (lines 268-420).  `args` is the token
list after the `setoption` command word.  The result is `none` when the code
panics (an unparsable integer value hitting `parse().unwrap()`), otherwise
`some (engine', lines written to the subprocess, lines printed to stdout)`. -/
def process_setoption (e : Engine) (args : List String) :
    Option (Engine × List String × List String) :=
  match args with
  | a0 :: rest =>
    if a0 = "name" then
      match rest with
      | opt :: rest2 =>
        if opt = "LichessDB_Variant_Weight" then
          some (setEnum e (fun x =>
            if x = "Games" then some { e with opt_weightby := WeightBy.Games }
            else if x = "Score" then some { e with opt_weightby := WeightBy.Score }
            else if x = "Random" then some { e with opt_weightby := WeightBy.Random }
            else none) rest2, [], [])
        else if opt = "LichessDB_Games_GT" then
          (setSpin e 1 1000000000
              (fun en n => { en with opt_games_min := n }) rest2).map
            (fun e2 => (e2, [], []))
        else if opt = "LichessDB_Games_Percent_GT" then
          (setSpin e 1 100
              (fun en n => { en with opt_games_pct_min := n }) rest2).map
            (fun e2 => (e2, [], []))
        else if opt = "LichessDB_Score_GT" then
          (setSpin e 1 100
              (fun en n => { en with opt_score_pct_min := n }) rest2).map
            (fun e2 => (e2, [], []))
        else if opt = "LichessDB_Variants" then
          (setSpin e 0 50
              (fun en n => { en with opt_variants := n }) rest2).map
            (fun e2 => (e2, [], []))
        else if opt = "LichessDB_Sort_By" then
          some (setEnum e (fun x =>
            if x = "Games" then some { e with opt_sortby := SortBy.Games }
            else if x = "Score" then some { e with opt_sortby := SortBy.Score }
            else none) rest2, [], [])
        else if opt = "LichessDB_Masters" then
          some (setEnum e (fun x =>
            if x = "true" then some { e with master_games := true }
            else if x = "false" then some { e with master_games := false }
            else none) rest2, [], [])
        else if opt = "LichessDB_Rating_1600_1800" then
          some (setEnum e (fun x =>
            if x = "true" then some { e with ratings.rating_1600 := true }
            else if x = "false" then some { e with ratings.rating_1600 := false }
            else none) rest2, [], [])
        else if opt = "LichessDB_Rating_1800_2000" then
          some (setEnum e (fun x =>
            if x = "true" then some { e with ratings.rating_1800 := true }
            else if x = "false" then some { e with ratings.rating_1800 := false }
            else none) rest2, [], [])
        else if opt = "LichessDB_Rating_2000_2200" then
          some (setEnum e (fun x =>
            if x = "true" then some { e with ratings.rating_2000 := true }
            else if x = "false" then some { e with ratings.rating_2000 := false }
            else none) rest2, [], [])
        else if opt = "LichessDB_Rating_2200_2500" then
          some (setEnum e (fun x =>
            if x = "true" then some { e with ratings.rating_2200 := true }
            else if x = "false" then some { e with ratings.rating_2200 := false }
            else none) rest2, [], [])
        else if opt = "LichessDB_Rating_Above_2500" then
          some (setEnum e (fun x =>
            if x = "true" then some { e with ratings.rating_2500 := true }
            else if x = "false" then some { e with ratings.rating_2500 := false }
            else none) rest2, [], [])
        else if opt = "LichessDB_Bullet" then
          some (setEnum e (fun x =>
            if x = "true" then some { e with tc.bullet := true }
            else if x = "false" then some { e with tc.bullet := false }
            else none) rest2, [], [])
        else if opt = "LichessDB_Blitz" then
          some (setEnum e (fun x =>
            if x = "true" then some { e with tc.blitz := true }
            else if x = "false" then some { e with tc.blitz := false }
            else none) rest2, [], [])
        else if opt = "LichessDB_Rapid" then
          some (setEnum e (fun x =>
            if x = "true" then some { e with tc.rapid := true }
            else if x = "false" then some { e with tc.rapid := false }
            else none) rest2, [], [])
        else if opt = "LichessDB_Classical" then
          some (setEnum e (fun x =>
            if x = "true" then some { e with tc.classical := true }
            else if x = "false" then some { e with tc.classical := false }
            else none) rest2, [], [])
        else
          some (e, [joinWith "setoption" args], [])
      | [] => some (e, [], ["No such option: "])
    else some (e, [], ["No such option: "])
  | [] => some (e, [], ["No such option: "])

/-- ASCII whitespace as recognised by Rust `str::split_ascii_whitespace`. -/
def isAsciiWhitespace (c : Char) : Bool :=
  c = ' ' || c = '\t' || c = '\n' || c = '\x0c' || c = '\r'

/-- Worker for `splitTokens`: walk the characters, `cur` holds the current
token's characters in reverse. -/
def tokenizeAux : List Char → List Char → List String
  | [], [] => []
  | [], cur => [String.mk cur.reverse]
  | c :: cs, cur =>
    if isAsciiWhitespace c then
      match cur with
      | [] => tokenizeAux cs []
      | _ => String.mk cur.reverse :: tokenizeAux cs []
    else tokenizeAux cs (c :: cur)

/-- Model of `line.split_ascii_whitespace()` collected to a list: maximal
runs of non-whitespace characters, empty tokens skipped. -/
def splitTokens (line : String) : List String :=
  tokenizeAux line.data []

/-- The closed set of command words the dispatcher in `main` matches on
(lines 604-614), with an `unknown` variant carrying the raw word. -/
inductive Cmd
  | uci
  | setoption
  | isready
  | position
  | go
  | stop
  | quit
  | unknown (word : String)
deriving DecidableEq, Repr

/-- Decode the first word of a front-end line into a command variant,
mirroring the `match word` of lines 603-614 (string equality against the
command constants; `quit` is the only word mapped to the terminal arm —
`EXIT_CMD` appears in no dispatcher arm). -/
def classify (word : String) : Cmd :=
  if word = "uci" then Cmd.uci
  else if word = "setoption" then Cmd.setoption
  else if word = "isready" then Cmd.isready
  else if word = "position" then Cmd.position
  else if word = "go" then Cmd.go
  else if word = "stop" then Cmd.stop
  else if word = "quit" then Cmd.quit
  else Cmd.unknown word

/-- The dispatcher step of `main`'s `while` loop (lines 598-621) at the
command-routing level: given one front-end line, whether the loop continues
(the handler results for recognised commands are abstracted to `true`, which
is each handler's value on its normal path; `quit` yields `false` ending the
loop) and the diagnostic the dispatcher itself prints (only the
unknown-command arm prints one, naming the unrecognised word, line 612). -/
def dispatchLine (line : String) : Bool × Option String :=
  match (splitTokens line).head? with
  | none => (true, none)
  | some word =>
    match classify word with
    | Cmd.quit => (false, none)
    | Cmd.unknown w => (true, some ("Unknown command: " ++ w))
    | _ => (true, none)

/-- The fen-rebuilding fold of `process_position` (lines 456-458): skip the
first token (`"fen"`) and concatenate the rest, each followed by a space. -/
def fenFold (args : List String) : String :=
  (args.drop 1).foldl (fun acc x => acc ++ x ++ " ") ""

/-- Model of `fn process_position` (lines 441-465).  `args` is the token
list after the `position` command word.  `none` models the
index-out-of-bounds panic of `args[2]` (line 450) when the argument list is
too short; otherwise `some (engine', lines written to the subprocess)`. -/
def process_position (e : Engine) (args : List String) :
    Option (Engine × List String) :=
  match args with
  | [] => some (e, [])
  | a0 :: _ =>
    if a0 = "startpos" then
      some ({ e with fen := STARTPOS, turn := Turn.White },
        [joinWith "position" args])
    else if a0 = "fen" then
      match args[2]? with
      | none => none
      | some a2 =>
        if a2 = "w" then
          some ({ e with turn := Turn.White, fen := fenFold args },
            [joinWith "position" args])
        else if a2 = "b" then
          some ({ e with turn := Turn.Black, fen := fenFold args },
            [joinWith "position" args])
        else some (e, [])
    else some (e, [joinWith "position" args])

/-- The token loop of `process_go` (lines 502-529) that maintains the
latest evaluation `(depth, seldepth, score unit, score value)` from the
tokens of one `info` line. -/
def updateEval : List String → String → String → String → String →
    String × String × String × String
  | [], d, sd, su, sc => (d, sd, su, sc)
  | w :: rest, d, sd, su, sc =>
    if w = "depth" then
      match rest with
      | [] => (d, sd, su, sc)
      | v :: rest2 => updateEval rest2 v sd su sc
    else if w = "seldepth" then
      match rest with
      | [] => (d, sd, su, sc)
      | v :: rest2 => updateEval rest2 d v su sc
    else if w = "score" then
      match rest with
      | [] => (d, sd, su, sc)
      | u :: rest2 =>
        let su2 := if u = "cp" then "cp" else if u = "mate" then "mate" else su
        match rest2 with
        | [] => (d, sd, su2, sc)
        | v :: rest3 => updateEval rest3 d sd su2 v
    else updateEval rest d sd su sc

/-- The first substituted `info` line of lines 489-490: the book move's
outcome percentages (integer percent of its own total games), its total
game count and its readable notation. -/
def bookInfoLine (x : Move) : String :=
  "info white " ++ toString (x.white * 100 / (x.white + x.draws + x.black)) ++
  " draws " ++ toString (x.draws * 100 / (x.white + x.draws + x.black)) ++
  " black " ++ toString (x.black * 100 / (x.white + x.draws + x.black)) ++
  " games " ++ toString (x.white + x.draws + x.black) ++
  " lichessdbmove " ++ x.san

/-- Model of Rust `str::starts_with` on strings, via the character lists. -/
def strBeginsWith (s pre : String) : Bool :=
  pre.data.isPrefixOf s.data

/-- The response relay `loop` of `process_go` (lines 483-540), consuming
subprocess lines.  Returns `(session continues, stdout lines emitted)`:
`(false, _)` models end-of-stream (`None => return false`, line 538);
with a book move, an empty subprocess line hits the inner
`None => break` (line 531) and ends the loop with nothing emitted. -/
def goLoop (best : Option Move) (d sd su sc : String) :
    List String → Bool × List String
  | [] => (false, [])
  | line :: rest =>
    if strBeginsWith line "bestmove" then
      match best with
      | some x =>
        (true,
          [bookInfoLine x,
           "info depth " ++ d ++ " seldepth " ++ sd ++
             " multipv 1 score " ++ su ++ " " ++ sc ++ " pv " ++ x.uci,
           "bestmove " ++ x.uci])
      | none => (true, [line])
    else
      match best with
      | some _ =>
        match splitTokens line with
        | [] => (true, [])
        | w :: ws =>
          if w = "info" then
            match updateEval ws d sd su sc with
            | (d2, sd2, su2, sc2) => goLoop best d2 sd2 su2 sc2 rest
          else goLoop best d sd su sc rest
      | none =>
        match goLoop best d sd su sc rest with
        | (b, outs) => (b, line :: outs)

/-- Model of `fn process_go` (lines 467-542).  `args` is the token list
after the `go` command word, `lines` the subprocess output stream,
`random` the single `rng.gen_range(0, total_weight)` draw.  The result is
`none` for the panic of `get_position_info_cached(..).unwrap()` (line 475)
when the cache-or-fetch comes back unavailable; otherwise `some (session
continues, fetch state after, lines written to the subprocess, stdout
lines emitted by the relay loop)`. -/
def process_go (e : Engine) (args : List String)
    (fetch : Nat → Option PositionInfo) (s : FetchState) (random : Nat)
    (lines : List String) :
    Option (Bool × FetchState × List String × List String) :=
  match get_position_info_cached fetch e.fen s with
  | (none, _) => none
  | (some position, s2) =>
    let best := get_position_move e position random
    match goLoop best "1" "1" "cp" "0" lines with
    | (b, outs) => some (b, s2, [joinWith "go" args], outs)

/-- Spec-side description of the selection step (spec section 4.5 step 5):
the first candidate whose cumulative weight strictly exceeds the drawn
integer.  Compared against `selectLoop` to settle the selection claim. -/
def firstExceeding (w : Move → Nat) (random acc : Nat) :
    List Move → Option Move
  | [] => none
  | x :: xs =>
    if random < acc + w x then some x
    else firstExceeding w random (acc + w x) xs

/-- Inserting adds one to the length. -/
theorem length_insertDesc {α : Type} (key : α → Nat) (x : α) (l : List α) :
    (insertDesc key x l).length = l.length + 1 := by
  induction l with
  | nil => rfl
  | cons y ys ih =>
    simp only [insertDesc]
    split <;> simp [ih]

/-- The stable sort is a permutation in particular in length. -/
theorem length_sortDesc {α : Type} (key : α → Nat) (l : List α) :
    (sortDesc key l).length = l.length := by
  induction l with
  | nil => rfl
  | cons x xs ih => simp [sortDesc, length_insertDesc, ih]

/-- Membership after insertion. -/
theorem mem_insertDesc {α : Type} (key : α → Nat) (x a : α) (l : List α) :
    a ∈ insertDesc key x l ↔ a = x ∨ a ∈ l := by
  induction l with
  | nil => simp [insertDesc]
  | cons y ys ih =>
    simp only [insertDesc]
    split <;> (simp [ih]; try tauto)

/-- Insertion preserves the descending-key ordering. -/
theorem pairwise_insertDesc {α : Type} (key : α → Nat) (x : α) (l : List α)
    (h : l.Pairwise (fun a b => key b ≤ key a)) :
    (insertDesc key x l).Pairwise (fun a b => key b ≤ key a) := by
  induction l with
  | nil => simp [insertDesc]
  | cons y ys ih =>
    rcases List.pairwise_cons.mp h with ⟨hy, hys⟩
    simp only [insertDesc]
    split
    · rename_i hlt
      refine List.pairwise_cons.mpr ⟨?_, ih hys⟩
      intro a ha
      rcases (mem_insertDesc key x a ys).mp ha with rfl | ha2
      · exact Nat.le_of_lt hlt
      · exact hy a ha2
    · rename_i hnlt
      refine List.pairwise_cons.mpr ⟨?_, h⟩
      intro a ha
      rcases List.mem_cons.mp ha with rfl | ha2
      · exact Nat.le_of_not_lt hnlt
      · exact Nat.le_trans (hy a ha2) (Nat.le_of_not_lt hnlt)

/-- The sort output is descending in the key. -/
theorem pairwise_sortDesc {α : Type} (key : α → Nat) (l : List α) :
    (sortDesc key l).Pairwise (fun a b => key b ≤ key a) := by
  induction l with
  | nil => simp [sortDesc]
  | cons x xs ih => exact pairwise_insertDesc key x _ ih

/-- Insertion places the new element in front of exactly the equal-key
elements already present (the elements passed over have strictly larger
keys), stated through `filter` at one key value. -/
theorem filter_insertDesc {α : Type} (key : α → Nat) (v : Nat) (x : α)
    (l : List α) :
    (insertDesc key x l).filter (fun a => decide (key a = v)) =
      if key x = v then x :: l.filter (fun a => decide (key a = v))
      else l.filter (fun a => decide (key a = v)) := by
  induction l with
  | nil =>
    by_cases hxv : key x = v <;> simp [insertDesc, List.filter_cons, hxv]
  | cons y ys ih =>
    simp only [insertDesc]
    by_cases hxy : key x < key y
    · rw [if_pos hxy]
      by_cases hxv : key x = v
      · have hyv : ¬ key y = v := by omega
        simp [List.filter_cons, hxv, hyv, ih]
      · simp [List.filter_cons, hxv, ih]
    · rw [if_neg hxy]
      simp [List.filter_cons]

/-- Stability of the sort: for every key value, the equal-key elements come
out in their original relative order. -/
theorem filter_sortDesc {α : Type} (key : α → Nat) (v : Nat) (l : List α) :
    (sortDesc key l).filter (fun a => decide (key a = v)) =
      l.filter (fun a => decide (key a = v)) := by
  induction l with
  | nil => rfl
  | cons x xs ih =>
    simp only [sortDesc, filter_insertDesc, List.filter_cons]
    by_cases hxv : key x = v
    · simp [hxv, ih]
    · simp [hxv, ih]

/-- A left fold of additions is the initial value plus the mapped sum. -/
theorem foldl_add_eq {α : Type} (f : α → Nat) (l : List α) (n : Nat) :
    l.foldl (fun acc x => acc + f x) n = n + (l.map f).sum := by
  induction l generalizing n with
  | nil => simp
  | cons x xs ih => simp [List.foldl, ih]; omega

/-- Summing the constant 1 gives the length. -/
theorem sum_map_one {α : Type} (l : List α) :
    (l.map (fun _ => (1 : Nat))).sum = l.length := by
  induction l with
  | nil => rfl
  | cons x xs ih =>
    simp [ih]
    omega

/-- The three weighting modes of `totalWeight` all compute the sum of the
per-candidate weights. -/
theorem totalWeight_eq (e : Engine) (moves : List Move) :
    totalWeight e moves = (moves.map (moveWeight e)).sum := by
  cases hw : e.opt_weightby with
  | Games =>
    have hmw : moveWeight e = fun x : Move => x.white + x.draws + x.black := by
      funext x
      simp [moveWeight, hw]
    simp only [totalWeight, hw, hmw, foldl_add_eq, Nat.zero_add]
  | Score =>
    have hmw : moveWeight e = fun x : Move => scorePct e.turn x := by
      funext x
      simp [moveWeight, hw]
    simp only [totalWeight, hw, hmw, foldl_add_eq, Nat.zero_add]
  | Random =>
    have hmw : moveWeight e = fun _ : Move => (1 : Nat) := by
      funext x
      simp [moveWeight, hw]
    simp only [totalWeight, hw, hmw, sum_map_one]

/-- The selection loop returns (castling-fixed) exactly the first candidate
whose cumulative weight strictly exceeds the draw. -/
theorem selectLoop_eq_firstExceeding (e : Engine) (random : Nat) :
    ∀ (l : List Move) (acc : Nat),
      selectLoop e random acc l =
        (firstExceeding (moveWeight e) random acc l).map mkSelected := by
  intro l
  induction l with
  | nil => intro acc; rfl
  | cons x xs ih =>
    intro acc
    simp only [selectLoop, firstExceeding]
    split
    · rfl
    · exact ih _

/-- When the draw lies below the remaining total weight (and at or above the
weight already accumulated), the scan finds a candidate. -/
theorem firstExceeding_isSome (w : Move → Nat) (random : Nat) :
    ∀ (l : List Move) (acc : Nat), acc ≤ random →
      random < acc + (l.map w).sum →
      (firstExceeding w random acc l).isSome = true := by
  intro l
  induction l with
  | nil =>
    intro acc h1 h2
    exfalso
    simp at h2
    omega
  | cons x xs ih =>
    intro acc h1 h2
    simp only [firstExceeding]
    split
    · rfl
    · rename_i hn
      apply ih
      · omega
      · simp [List.map_cons, List.sum_cons] at h2
        omega

/-- C9: the castling-notation rewrite `fix_castle` is a pure total function
that is idempotent, maps exactly `e1h1`, `e1a1`, `e8h8`, `e8a8` to `e1g1`,
`e1c1`, `e8g8`, `e8c8`, and is the identity on every other string. -/
theorem claim_C9 :
    (∀ s, fix_castle (fix_castle s) = fix_castle s) ∧
    fix_castle "e1h1" = "e1g1" ∧ fix_castle "e1a1" = "e1c1" ∧
    fix_castle "e8h8" = "e8g8" ∧ fix_castle "e8a8" = "e8c8" ∧
    (∀ s, s ≠ "e1h1" → s ≠ "e1a1" → s ≠ "e8h8" → s ≠ "e8a8" →
      fix_castle s = s) := by
  have hid : ∀ s, s ≠ "e1h1" → s ≠ "e1a1" → s ≠ "e8h8" → s ≠ "e8a8" →
      fix_castle s = s := by
    intro s h1 h2 h3 h4
    simp [fix_castle, h1, h2, h3, h4]
  refine ⟨?_, rfl, rfl, rfl, rfl, hid⟩
  intro s
  by_cases h1 : s = "e1h1"
  · subst h1; rfl
  by_cases h2 : s = "e1a1"
  · subst h2; rfl
  by_cases h3 : s = "e8h8"
  · subst h3; rfl
  by_cases h4 : s = "e8a8"
  · subst h4; rfl
  rw [hid s h1 h2 h3 h4]
  exact hid s h1 h2 h3 h4

/-- Witness for C9: the identity branch at the non-castling move `d2d4`. -/
theorem claim_C9_witness :
    ("d2d4" : String) ≠ "e1h1" ∧ fix_castle "d2d4" = "d2d4" :=
  ⟨by decide, claim_C9.2.2.2.2.2 "d2d4" (by decide) (by decide) (by decide)
    (by decide)⟩

/-- C10: a `position fen ...` command with fewer than three argument tokens
makes `process_position` read `args[2]` out of bounds; the embedding
returns `none` (the Rust index panic) because the handler never validates
the argument count. -/
theorem claim_C10 (e : Engine) (args : List String)
    (h0 : args.head? = some "fen") (hlen : args.length < 3) :
    process_position e args = none := by
  cases args with
  | nil => simp at h0
  | cons a0 rest =>
    have ha : a0 = "fen" := by simpa using h0
    subst ha
    cases rest with
    | nil => rfl
    | cons r1 rest2 =>
      cases rest2 with
      | nil => rfl
      | cons r2 rest3 =>
        simp [List.length_cons] at hlen
        omega

/-- Witness for C10: the bare `position fen` command (no fields at all). -/
theorem claim_C10_witness :
    (["fen"] : List String).head? = some "fen" ∧
    (["fen"] : List String).length < 3 ∧
    process_position initialEngine ["fen"] = none :=
  ⟨rfl, by decide, claim_C10 initialEngine ["fen"] rfl (by decide)⟩

/-- C1: contrary to the claim, a failed cache-or-fetch does NOT let the
search proceed: `process_go` hits `.unwrap()` on the unavailable result
(src line 475) and panics (`none`), aborting the session before a single
subprocess line is relayed.  Evaluated here at a concrete failing input:
empty cache, always-failing fetch, subprocess stream holding a progress
line and its terminal best-move line. -/
theorem claim_C1 :
    process_go initialEngine [] (fun _ => none) ⟨[], 0⟩ 0
      ["info depth 5", "bestmove e2e4"] = none := rfl

/-- C2: contrary to the claim, the side-adjusted score percent divides by
`2*white + black + 2*draws`, not by `2*(white + draws + black)`: for a move
with counts (white 0, draws 0, black 10) and Black to move the code computes
200 where the claimed formula gives 100, and for counts (white 1, draws 0,
black 2) with threshold 100 the filter retains a move the claimed formula
would reject (its spec-formula score is 66). -/
theorem claim_C2 :
    scorePct Turn.Black
      { uci := "g8f6", san := "Nf6", white := 0, draws := 0, black := 10 }
      = 200 ∧
    scorePctSpec Turn.Black
      { uci := "g8f6", san := "Nf6", white := 0, draws := 0, black := 10 }
      = 100 ∧
    filteredMoves
      { initialEngine with
          turn := Turn.Black, opt_games_min := 1, opt_score_pct_min := 100 }
      { white := 1, draws := 0, black := 2,
        moves :=
          [{ uci := "g8f6", san := "Nf6", white := 1, draws := 0, black := 2 }] } =
      [{ uci := "g8f6", san := "Nf6", white := 1, draws := 0, black := 2 }] ∧
    scorePctSpec Turn.Black
      { uci := "g8f6", san := "Nf6", white := 1, draws := 0, black := 2 }
      = 66 ∧
    ¬ (100 ≤ scorePctSpec Turn.Black
      { uci := "g8f6", san := "Nf6", white := 1, draws := 0, black := 2 }) := by
  refine ⟨rfl, rfl, ?_, rfl, by decide⟩
  decide

/-- C4: starting from a cache that misses the key, two cache-or-fetch calls
with the same position key consult the network oracle at most once when the
first fetch succeeds — the second call is served from the cache and both
return the identical shared statistics instance — while a fetch failure
returns unavailable without inserting anything, so the second call
re-attempts the fetch (the count rises again). -/
theorem claim_C4 (fetch : Nat → Option PositionInfo) (fen : String)
    (s : FetchState) (hmiss : cacheLookup s.cache fen = none) :
    (∀ p, fetch s.fetchCount = some p →
      (get_position_info_cached fetch fen s).1 = some p ∧
      (get_position_info_cached fetch fen
          (get_position_info_cached fetch fen s).2).1 = some p ∧
      (get_position_info_cached fetch fen
          (get_position_info_cached fetch fen s).2).2.fetchCount =
        s.fetchCount + 1) ∧
    (fetch s.fetchCount = none →
      (get_position_info_cached fetch fen s).1 = none ∧
      (get_position_info_cached fetch fen s).2.cache = s.cache ∧
      (get_position_info_cached fetch fen
          (get_position_info_cached fetch fen s).2).2.fetchCount =
        s.fetchCount + 2) := by
  constructor
  · intro p hp
    simp [get_position_info_cached, hmiss, hp, cacheLookup]
  · intro hnone
    refine ⟨?_, ?_, ?_⟩
    · simp [get_position_info_cached, hmiss, hnone]
    · simp [get_position_info_cached, hmiss, hnone]
    · cases hf2 : fetch (s.fetchCount + 1) <;>
        simp [get_position_info_cached, hmiss, hnone, hf2]

/-- Witness for C4: one successful fetch on an empty cache; across the two
calls the oracle is consulted exactly once. -/
theorem claim_C4_witness :
    cacheLookup [] "k" = none ∧
    (get_position_info_cached (fun _ => some ⟨1, 0, 0, []⟩) "k"
        (get_position_info_cached (fun _ => some ⟨1, 0, 0, []⟩) "k"
          ⟨[], 0⟩).2).2.fetchCount = 0 + 1 :=
  ⟨rfl,
    ((claim_C4 (fun _ => some ⟨1, 0, 0, []⟩) "k" ⟨[], 0⟩ rfl).1
      ⟨1, 0, 0, []⟩ rfl).2.2⟩

/-- C5: with total weight zero the Move Selector produces no move; and for
any draw below the total weight it returns exactly the first retained
candidate (in sorted order) whose cumulative weight strictly exceeds the
draw (castling-fixed), in particular some move is always produced. -/
theorem claim_C5 (e : Engine) (position : PositionInfo) (random : Nat) :
    (totalWeight e (retainedMoves e position) = 0 →
      get_position_move e position random = none) ∧
    (random < totalWeight e (retainedMoves e position) →
      get_position_move e position random =
        (firstExceeding (moveWeight e) random 0
          (retainedMoves e position)).map mkSelected ∧
      get_position_move e position random ≠ none) := by
  constructor
  · intro h0
    simp [get_position_move, h0]
  · intro hr
    have hne : totalWeight e (retainedMoves e position) ≠ 0 := by omega
    have heq : get_position_move e position random =
        (firstExceeding (moveWeight e) random 0
          (retainedMoves e position)).map mkSelected := by
      simp [get_position_move, hne, selectLoop_eq_firstExceeding]
    refine ⟨heq, ?_⟩
    rw [heq]
    have hsome := firstExceeding_isSome (moveWeight e) random
      (retainedMoves e position) 0 (Nat.zero_le _)
      (by rw [Nat.zero_add, ← totalWeight_eq]; exact hr)
    cases hfe : firstExceeding (moveWeight e) random 0
        (retainedMoves e position) with
    | none => rw [hfe] at hsome; simp at hsome
    | some m => simp

/-- Witness for C5: initial configuration (uniform weighting, one variant),
a position whose single reply passes all filters, draw 0. -/
theorem claim_C5_witness :
    0 < totalWeight initialEngine
      (retainedMoves initialEngine
        { white := 100, draws := 0, black := 0,
          moves :=
            [{ uci := "e2e4", san := "e4", white := 100, draws := 0, black := 0 }] }) ∧
    get_position_move initialEngine
      { white := 100, draws := 0, black := 0,
        moves :=
          [{ uci := "e2e4", san := "e4", white := 100, draws := 0, black := 0 }] }
      0 ≠ none :=
  ⟨by decide,
    ((claim_C5 initialEngine
      { white := 100, draws := 0, black := 0,
        moves :=
          [{ uci := "e2e4", san := "e4", white := 100, draws := 0, black := 0 }] }
      0).2 (by decide)).2⟩

/-- C6: on statistics whose position total is positive (the coverage
division's Rust divisor), the filter-sort-truncate pipeline's output length
is at most the minimum of the configured retained-variant count and the
number of candidates passing the filters; a retained-variant count of 0
means no book move is ever produced; and the descending sort is stable:
sorted by descending key, with equal-key candidates kept in their original
relative order. -/
theorem claim_C6 (e : Engine) (position : PositionInfo)
    (_hpos : 0 < position.white + position.draws + position.black) :
    (retainedMoves e position).length ≤
      min e.opt_variants (filteredMoves e position).length ∧
    (e.opt_variants = 0 → ∀ random, get_position_move e position random = none) ∧
    (sortDesc (sortKey e) (filteredMoves e position)).Pairwise
      (fun a b => sortKey e b ≤ sortKey e a) ∧
    (∀ v, (sortDesc (sortKey e) (filteredMoves e position)).filter
        (fun m => decide (sortKey e m = v)) =
      (filteredMoves e position).filter (fun m => decide (sortKey e m = v))) := by
  refine ⟨?_, ?_, pairwise_sortDesc _ _, fun v => filter_sortDesc _ v _⟩
  · simp [retainedMoves, List.length_take, length_sortDesc]
  · intro h0 random
    have hret : retainedMoves e position = [] := by
      simp [retainedMoves, h0]
    cases hw : e.opt_weightby <;>
      simp [get_position_move, hret, totalWeight, hw]

/-- Witness for C6: the initial configuration on a one-game position with no
recorded replies. -/
theorem claim_C6_witness :
    0 < 1 + 0 + 0 ∧
    (retainedMoves initialEngine { white := 1, draws := 0, black := 0, moves := [] }).length ≤
      min initialEngine.opt_variants
        (filteredMoves initialEngine
          { white := 1, draws := 0, black := 0, moves := [] }).length :=
  ⟨by decide,
    (claim_C6 initialEngine { white := 1, draws := 0, black := 0, moves := [] }
      (by decide)).1⟩

/-- C7: under the option invariant `opt_games_min ≥ 1` (its advertised
minimum, also its initial value 30), a candidate with zero total games fails
the first filter, hence never appears among the filtered moves; and every
move that survives the first filter — the only moves whose side-adjusted
score is ever computed by the later stages — has a positive score divisor
`2*white + black + 2*draws`. -/
theorem claim_C7 (e : Engine) (position : PositionInfo) (m : Move)
    (hmin : 1 ≤ e.opt_games_min) (hzero : m.white + m.black + m.draws = 0) :
    passGamesMin e m = false ∧
    m ∉ filteredMoves e position ∧
    ∀ m2 ∈ position.moves.filter (passGamesMin e),
      0 < 2 * m2.white + m2.black + 2 * m2.draws := by
  have h1 : passGamesMin e m = false := by
    simp [passGamesMin]
    omega
  refine ⟨h1, ?_, ?_⟩
  · intro hmem
    simp [filteredMoves, List.mem_filter, passGamesMin] at hmem
    omega
  · intro m2 hm2
    rw [List.mem_filter] at hm2
    have h := hm2.2
    simp [passGamesMin] at h
    omega

/-- Witness for C7: the initial configuration and a reply with all counts
zero. -/
theorem claim_C7_witness :
    1 ≤ initialEngine.opt_games_min ∧
    passGamesMin initialEngine
      { uci := "a2a3", san := "a3", white := 0, draws := 0, black := 0 } = false :=
  ⟨by decide,
    (claim_C7 initialEngine { white := 5, draws := 0, black := 0, moves := [] }
      { uci := "a2a3", san := "a3", white := 0, draws := 0, black := 0 }
      (by decide) (by decide)).1⟩

/-- A token whose `i32` parse yields a positive value carries no `-` sign,
so its unsigned re-parse succeeds with the same value: the assignment arms
of the three options with range minimum 1 never panic on the second
`unwrap`. -/
theorem parseU64_of_parseI32_pos (v : String) (n : Int)
    (h : parseI32 v = some n) (h1 : 1 ≤ n) : parseU64 v = some n.toNat := by
  cases hd : v.data with
  | nil => simp [parseI32, hd] at h
  | cons c rest =>
    by_cases hp : c = '+'
    · subst hp
      cases hpd : parseDigits rest with
      | none => simp [parseI32, hd, hpd] at h
      | some d =>
        simp [parseI32, hd, hpd] at h
        have hdle : d ≤ U64_MAX := by
          simp only [U64_MAX]
          omega
        simp [parseU64, hd, hpd, hdle]
        omega
    · by_cases hm : c = '-'
      · subst hm
        cases hpd : parseDigits rest with
        | none => simp [parseI32, hd, hpd] at h
        | some d =>
          simp [parseI32, hd, hpd] at h
          exfalso
          omega
      · cases hpd : parseDigits (c :: rest) with
        | none => simp [parseI32, hd, hp, hm, hpd] at h
        | some d =>
          simp [parseI32, hd, hp, hm, hpd] at h
          have hdle : d ≤ U64_MAX := by
            simp only [U64_MAX]
            omega
          simp [parseU64, hd, hp, hm, hpd, hdle]
          omega

/-- C3 counterexample: contrary to the claim, neither an unparsable value
token nor every out-of-advertised-range value is a no-op — the match
scrutinee `x.parse().unwrap()` (src line 285, `i32` by integer-literal
pattern fallback) panics on `ten` and also on `3000000000` (above
`i32::MAX` though below `LichessDB_Games_GT`'s advertised maximum),
aborting the session (`none` in the embedding). -/
theorem claim_C3_counterexample :
    process_setoption initialEngine
      ["name", "LichessDB_Games_GT", "value", "ten"] = none ∧
    process_setoption initialEngine
      ["name", "LichessDB_Games_GT", "value", "3000000000"] = none :=
  ⟨rfl, rfl⟩

/-- C3 as amended: for each recognized integer option, the assignment
happens only if the value token parses and lies within the arm's accepted
range, but the panic/no-op split follows the scrutinee's `i32` parse: a
token parsable as `i32` but out of range — any negative value such as `-5`
included — is a no-op retaining the prior value, while a token unparsable
as `i32` (non-numeric, or outside `[-2147483648, 2147483647]`, such as
`3000000000`) panics and aborts the session; an in-range assignment
re-parses the token at the option's unsigned type, which for the three
minimum-1 options always succeeds, and for `LichessDB_Variants`
(minimum 0) panics exactly on a `-`-signed token, i.e. `-0`; and setting
`LichessDB_Games_GT` (advertised minimum 1) to 0 leaves the value
unchanged. -/
theorem claim_C3_amended (e : Engine) (v : String) :
    (process_setoption e ["name", "LichessDB_Games_GT", "value", v] =
      match parseI32 v with
      | none => none
      | some n =>
        if 1 ≤ n ∧ n ≤ 1000000000 then
          some ({ e with opt_games_min := n.toNat }, [], [])
        else some (e, [], [])) ∧
    (process_setoption e ["name", "LichessDB_Games_Percent_GT", "value", v] =
      match parseI32 v with
      | none => none
      | some n =>
        if 1 ≤ n ∧ n ≤ 100 then
          some ({ e with opt_games_pct_min := n.toNat }, [], [])
        else some (e, [], [])) ∧
    (process_setoption e ["name", "LichessDB_Score_GT", "value", v] =
      match parseI32 v with
      | none => none
      | some n =>
        if 1 ≤ n ∧ n ≤ 100 then
          some ({ e with opt_score_pct_min := n.toNat }, [], [])
        else some (e, [], [])) ∧
    (process_setoption e ["name", "LichessDB_Variants", "value", v] =
      match parseI32 v with
      | none => none
      | some n =>
        if 0 ≤ n ∧ n ≤ 50 then
          match parseU64 v with
          | some m => some ({ e with opt_variants := m }, [], [])
          | none => none
        else some (e, [], [])) ∧
    process_setoption e ["name", "LichessDB_Games_GT", "value", "-5"] =
      some (e, [], []) ∧
    process_setoption e ["name", "LichessDB_Variants", "value", "-0"] =
      none ∧
    process_setoption e ["name", "LichessDB_Games_GT", "value", "0"] =
      some (e, [], []) := by
  refine ⟨?_, ?_, ?_, ?_, rfl, rfl, rfl⟩
  · cases hv : parseI32 v with
    | none => simp [process_setoption, setSpin, hv]
    | some n =>
      by_cases hr : (1 : Int) ≤ n ∧ n ≤ 1000000000
      · have hu := parseU64_of_parseI32_pos v n hv hr.1
        simp [process_setoption, setSpin, hv, hr, hu]
      · simp [process_setoption, setSpin, hv, hr]
  · cases hv : parseI32 v with
    | none => simp [process_setoption, setSpin, hv]
    | some n =>
      by_cases hr : (1 : Int) ≤ n ∧ n ≤ 100
      · have hu := parseU64_of_parseI32_pos v n hv hr.1
        simp [process_setoption, setSpin, hv, hr, hu]
      · simp [process_setoption, setSpin, hv, hr]
  · cases hv : parseI32 v with
    | none => simp [process_setoption, setSpin, hv]
    | some n =>
      by_cases hr : (1 : Int) ≤ n ∧ n ≤ 100
      · have hu := parseU64_of_parseI32_pos v n hv hr.1
        simp [process_setoption, setSpin, hv, hr, hu]
      · simp [process_setoption, setSpin, hv, hr]
  · cases hv : parseI32 v with
    | none => simp [process_setoption, setSpin, hv]
    | some n =>
      by_cases hr : (0 : Int) ≤ n ∧ n ≤ 50
      · cases hu : parseU64 v <;>
          simp [process_setoption, setSpin, hv, hr, hu]
      · simp [process_setoption, setSpin, hv, hr]

/-- C8 counterexample: contrary to the claim, the `exit` token is not a
terminal command: the dispatcher's `quit` arm alone ends the loop, and
`exit` falls to the unknown-command arm (diagnostic, loop continues). -/
theorem claim_C8_counterexample :
    dispatchLine "exit" = (true, some "Unknown command: exit") ∧
    dispatchLine "quit" = (false, none) := ⟨rfl, rfl⟩

/-- C8 as amended: only the `quit` token is terminal; any line whose first
token is outside the seven recognized command words — `exit` included —
yields a diagnostic naming the token and the loop continues. -/
theorem claim_C8_amended :
    dispatchLine "quit" = (false, none) ∧
    (∀ line word, (splitTokens line).head? = some word →
      word ≠ "uci" → word ≠ "setoption" → word ≠ "isready" →
      word ≠ "position" → word ≠ "go" → word ≠ "stop" → word ≠ "quit" →
      dispatchLine line = (true, some ("Unknown command: " ++ word))) := by
  refine ⟨rfl, ?_⟩
  intro line word hw h1 h2 h3 h4 h5 h6 h7
  simp [dispatchLine, hw, classify, h1, h2, h3, h4, h5, h6, h7]

/-- Witness for C8: the unrecognized word `flip` continues the loop with a
diagnostic naming it. -/
theorem claim_C8_witness :
    (splitTokens "flip").head? = some "flip" ∧
    dispatchLine "flip" = (true, some ("Unknown command: " ++ "flip")) :=
  ⟨rfl, claim_C8_amended.2 "flip" "flip" rfl (by decide) (by decide)
    (by decide) (by decide) (by decide) (by decide) (by decide)⟩
